import Mathlib

/-!
Shallow embedding of the `table_extraction` scripts (`interactive.py` and
`interactiveupdate.py`).  PDF pages are modelled abstractly: a page carries
the outcome of `extract_text()` (which may raise, or return `None`), the
outcome of `extract_words()`, the tables `extract_tables()` reports on the
full page, and, as a function of the crop coordinate, the tables reported
on the region below that coordinate.  The regular-expression search for the
heading is modelled as a matcher function returning the captured group.
Exceptions are modelled with `Except Unit`; the scripts' `try`/`except`
blocks become explicit catches.  Vertical pixel coordinates are modelled as
integers.
-/

namespace TableExtraction

/-- A table cell as returned by the PDF table extractor: absent (`None` in
Python) or a string. -/
abbrev Cell := Option String

/-- A raw candidate table: a list of rows of optional string cells. -/
abbrev Table := List (List Cell)

/-- Python `str()` applied to a table cell: `None` stringifies to `"None"`,
a string stringifies to itself. -/
def pyStr : Cell → String
  | none => "None"
  | some s => s

/-- Whether the first list is an initial segment of the second. -/
def leadsList : List Char → List Char → Bool
  | [], _ => true
  | _ :: _, [] => false
  | a :: as, b :: bs => (a == b) && leadsList as bs

/-- Whether the first list occurs as a contiguous segment of the second. -/
def withinList (needle : List Char) : List Char → Bool
  | [] => needle.isEmpty
  | c :: rest => leadsList needle (c :: rest) || withinList needle rest

/-- Python `needle in hay` on strings: substring containment. -/
def strContains (hay needle : String) : Bool :=
  withinList needle.data hay.data

/-- Python `str.strip()`: remove leading and trailing whitespace. -/
def pyStrip (s : String) : String :=
  String.mk (((s.data.dropWhile Char.isWhitespace).reverse.dropWhile
    Char.isWhitespace).reverse)

/-- Python `str.lower()`: lowercase every character. -/
def pyLower (s : String) : String :=
  String.mk (s.data.map Char.toLower)

/-- Python `re.match(r'\d{4}-\d{2}', s)` viewed as a Boolean test: the
match is anchored at the start of the string only, so the string must
begin with four digits, a hyphen and two digits; anything may follow. -/
def matchesYearPat (s : String) : Bool :=
  match s.data with
  | c1 :: c2 :: c3 :: c4 :: h :: c5 :: c6 :: _ =>
      c1.isDigit && c2.isDigit && c3.isDigit && c4.isDigit
        && (h == '-') && c5.isDigit && c6.isDigit
  | _ => false

/-- Structural validity test applied to each candidate table, from
`extract_table_from_cropped_area`: at least 2 rows, first row of exactly
5 cells, every first-row cell passing `re.match(r'\d{4}-\d{2}', str(cell))`. -/
def validTable (t : Table) : Bool :=
  decide (2 ≤ t.length) && decide ((t.headD []).length = 5)
    && (t.headD []).all (fun c => matchesYearPat (pyStr c))

/-- The selection loop of `extract_table_from_cropped_area`: return the
first table passing `validTable`, truncated to its first two rows
(`pd.DataFrame(table[:2])`), or nothing. -/
def selectValidTable (tables : List Table) : Option Table :=
  (tables.find? validTable).map (fun t => t.take 2)

/-- A word as reported by `page.extract_words()`: its text and the
vertical coordinate stored under the key `bottom`. -/
structure Word where
  text : String
  bottom : Int
deriving DecidableEq

/-- A PDF page, abstracting the pdfplumber page object.  `textE` is the
outcome of `extract_text()` (it may raise, or return `None`), `wordsE`
the outcome of `extract_words()`, `tables` the result of
`extract_tables()` on the uncropped page, and `cropTables y` the result
of `extract_tables()` on the page cropped to the region below vertical
coordinate `y`. -/
structure Page where
  textE : Except Unit (Option String)
  wordsE : Except Unit (List Word)
  tables : List Table
  cropTables : Int → List Table

/-- A matcher models `re.search(pattern, text, re.IGNORECASE)` for the
configured heading pattern: it returns the text captured by group 1 when
the pattern matches the page text, and nothing otherwise. -/
abbrev Matcher := String → Option String

/-- The page loop inside `find_text_and_crop`.  Applying the regex to a
`None` text raises (`TypeError`), modelled as `Except.error`; a raising
`extract_text`/`extract_words` call propagates.  When the regex matches a
page's text, the first word whose text contains the captured group yields
the result; if no word on that page contains it, the loop moves on to the
next page. -/
def find_loop (m : Matcher) : List Page → Nat → Except Unit (Option (Nat × Int))
  | [], _ => Except.ok none
  | p :: rest, i =>
      match p.textE with
      | Except.error e => Except.error e
      | Except.ok none => Except.error ()
      | Except.ok (some s) =>
          match m s with
          | none => find_loop m rest (i + 1)
          | some g =>
              match p.wordsE with
              | Except.error e => Except.error e
              | Except.ok ws =>
                  match ws.find? (fun w => strContains w.text g) with
                  | some w => Except.ok (some (i, w.bottom))
                  | none => find_loop m rest (i + 1)

/-- `find_text_and_crop`: run the page loop under the `try`/`except`
wrapper; any exception yields the not-found result `(None, None, False)`,
modelled as `none`.  A `some (k, y)` result corresponds to
`(k, y, True)`. -/
def find_text_and_crop (m : Matcher) (pdf : List Page) : Option (Nat × Int) :=
  match find_loop m pdf 0 with
  | Except.ok r => r
  | Except.error _ => none

/-- `extract_table_from_cropped_area` of `interactiveupdate.py`: out-of-range
page indices return no table; in next-page mode the page is used uncropped,
otherwise it is cropped below `y_coord` (a missing `y_coord` makes
`page.crop` raise, caught by the wrapper and yielding no table); the first
structurally valid table, truncated to two rows, is returned. -/
def extract_table_from_cropped_area (pdf : List Page) (page_num : Nat)
    (y_coord : Option Int) (check_next_page : Bool) : Option Table :=
  if pdf.length ≤ page_num then none
  else
    match pdf[page_num]? with
    | none => none
    | some page =>
        match (if check_next_page then some page.tables
               else y_coord.map page.cropTables) with
        | none => none
        | some ts => selectValidTable ts

/-- `extract_table_from_cropped_area` of `interactive.py`: no explicit
bounds check (an out-of-range index raises `IndexError`, caught by the
wrapper) and no next-page mode. -/
def extract_table_plain (pdf : List Page) (page_num : Nat) (y_coord : Int) :
    Option Table :=
  match pdf[page_num]? with
  | none => none
  | some page => selectValidTable (page.cropTables y_coord)

/-- `extract_enrollment_table` of `interactiveupdate.py`: locate the
heading; on success crop-extract from the located page, and when that
yields nothing and the heading's vertical coordinate is at least 700,
retry once in next-page mode on the following page; the `section_found`
flag of the locator is passed through. -/
def extract_enrollment_table (m : Matcher) (pdf : List Page) :
    Option Table × Bool :=
  match find_text_and_crop m pdf with
  | some (k, y) =>
      match extract_table_from_cropped_area pdf k (some y) false with
      | some df => (some df, true)
      | none =>
          if 700 ≤ y then
            (extract_table_from_cropped_area pdf (k + 1) none true, true)
          else (none, true)
  | none => (none, false)

/-- Cell preprocessing in `get_college_name`:
`str(cell).strip() if cell is not None else ""`. -/
def cellStr : Cell → String
  | none => ""
  | some s => pyStrip s

/-- The per-row test of `get_college_name`: rows need more than one cell;
the candidate is cell index 1, stripped; it is accepted when non-empty
and its lowercase form is not the header label. -/
def nameFromRow (row : List Cell) : Option String :=
  if 1 < row.length then
    let nm := pyStrip (cellStr (row.getD 1 none))
    if nm ≠ "" ∧ pyLower nm ≠ "name of the college" then some nm else none
  else none

/-- Scan one table of the BASIC INFORMATION page: rows at index 1 and
beyond, first accepted candidate. -/
def nameFromTable (t : Table) : Option String :=
  (t.drop 1).findSome? nameFromRow

/-- Scan all tables of the BASIC INFORMATION page in order. -/
def findNameInTables (ts : List Table) : Option String :=
  ts.findSome? nameFromTable

/-- The page loop inside `get_college_name`.  The membership test
`"BASIC INFORMATION" in text` raises when `text` is `None`; a raising
`extract_text` propagates; a page containing the phrase but yielding no
accepted candidate lets the loop continue with the next page. -/
def gcn_loop : List Page → Except Unit (Option String)
  | [] => Except.ok none
  | p :: rest =>
      match p.textE with
      | Except.error e => Except.error e
      | Except.ok none => Except.error ()
      | Except.ok (some s) =>
          if strContains s "BASIC INFORMATION" then
            match findNameInTables p.tables with
            | some nm => Except.ok (some nm)
            | none => gcn_loop rest
          else gcn_loop rest

/-- `get_college_name`: the page loop under the `try`/`except` wrapper;
any exception yields `None`. -/
def get_college_name (pdf : List Page) : Option String :=
  match gcn_loop pdf with
  | Except.ok r => r
  | Except.error _ => none

/-- Python `a or b` for an optional string `a` and string `b`, as used in
`get_college_name(pdf_path) or os.path.splitext(...)[0]`. -/
def pyOr (a : Option String) (b : String) : String :=
  match a with
  | some s => if s = "" then b else s
  | none => b

/-- One written spreadsheet cell: row, column, and value (`none` models a
cell that is touched for styling but left without a value). -/
structure Write where
  row : Nat
  col : Nat
  val : Option String
deriving DecidableEq

/-- The per-file result consumed by `save_to_excel`: resolved display
name, the stored 2-row table (as a DataFrame) if any, and the
`section_found` flag. -/
structure Record where
  name : String
  df : Option Table
  sectionFound : Bool

/-- The placeholder header row of `interactiveupdate.py`. -/
def default_years : List String :=
  ["2020-21", "2019-20", "2018-19", "2017-18", "2016-17"]

/-- Writing one DataFrame row at spreadsheet row `r` starting at column
`c`: cell `i` of the row goes to column `c + i`. -/
def rowWrites (r c : Nat) (vals : List Cell) : List Write :=
  vals.enum.map (fun p => { row := r, col := c + p.1, val := p.2 })

/-- The placeholder branch of `save_to_excel` in `interactiveupdate.py`:
the default year labels in spreadsheet row 2, and in row 3 a blank cell
when the section was found, or the marker `x` when it was not. -/
def placeholderWrites (sectionFound : Bool) (c : Nat) : List Write :=
  default_years.enum.flatMap (fun p =>
    [{ row := 2, col := c + p.1, val := some p.2 },
     { row := 3, col := c + p.1, val :=
        if sectionFound then none else some "x" }])

/-- All value writes of one college block starting at column `c`, per
`save_to_excel` of `interactiveupdate.py`: the name cell at row 1, then
either the stored table's first row (and second row when present) or the
placeholder branch. -/
def blockWrites (rec : Record) (c : Nat) : List Write :=
  { row := 1, col := c, val := some rec.name } ::
    (match rec.df with
     | some t =>
         if t.length = 0 then placeholderWrites rec.sectionFound c
         else
           rowWrites 2 c (t.headD []) ++
             (if 1 < t.length then rowWrites 3 c ((t.drop 1).headD []) else [])
     | none => placeholderWrites rec.sectionFound c)

/-- The columns whose width is set for one block:
`for i in range(5): ... current_col + i`. -/
def blockWidthCols (c : Nat) : List Nat :=
  (List.range 5).map (fun i => c + i)

/-- Everything `save_to_excel` does to the sheet: the value writes, the
merged ranges (as `(row1, col1, row2, col2)`), and the columns given a
fixed width. -/
structure SheetOut where
  writes : List Write
  merges : List (Nat × Nat × Nat × Nat)
  widthCols : List Nat

/-- The college loop of `save_to_excel`: one block per record, the
current column advancing by 5 after each. -/
def save_loop : List Record → Nat → SheetOut
  | [], _ => { writes := [], merges := [], widthCols := [] }
  | r :: rest, c =>
      let tail := save_loop rest (c + 5)
      { writes := blockWrites r c ++ tail.writes,
        merges := (1, c, 1, c + 4) :: tail.merges,
        widthCols := blockWidthCols c ++ tail.widthCols }

/-- `save_to_excel` of `interactiveupdate.py`: the loop starts at
`current_col = 1`. -/
def save_to_excel (recs : List Record) : SheetOut :=
  save_loop recs 1

/-- The per-document `try`/`except` boundary of `process_folder` in
`interactiveupdate.py`: a raising document is recorded as
`(None, False)`. -/
def catchDoc (r : Except Unit (Option Table × Bool)) : Option Table × Bool :=
  match r with
  | Except.ok v => v
  | Except.error _ => (none, false)

/-- The result mapping built by `process_folder`: every document gets an
entry, exceptions replaced by the default result. -/
def process_results (docs : List (Except Unit (Option Table × Bool))) :
    List (Option Table × Bool) :=
  docs.map catchDoc

/-- The outcome of one page for the heading locator, on a page whose
extraction calls do not raise: the bottom coordinate of the first word
containing the captured group, provided the regex matches the page
text and such a word exists. -/
def pageHit (m : Matcher) (p : Page) : Option Int :=
  match p.textE with
  | Except.ok (some s) =>
      match m s with
      | some g =>
          match p.wordsE with
          | Except.ok ws =>
              (ws.find? (fun w => strContains w.text g)).map Word.bottom
          | Except.error _ => none
      | none => none
  | _ => none

/-- First-hit reference formulation of the heading locator: the first
page (in order) with a `pageHit`, together with that hit. -/
def locate_first (m : Matcher) : List Page → Nat → Option (Nat × Int)
  | [], _ => none
  | p :: rest, i =>
      match pageHit m p with
      | some y => some (i, y)
      | none => locate_first m rest (i + 1)

/-- A page on which the heading locator neither raises nor returns:
text extraction succeeds with a string, and either the regex does not
match, or it matches but word extraction succeeds and no word contains
the captured group. -/
def locPassed (m : Matcher) (p : Page) : Prop :=
  ∃ s, p.textE = Except.ok (some s) ∧
    (m s = none ∨ ∃ g ws, m s = some g ∧ p.wordsE = Except.ok ws ∧
      ws.find? (fun w => strContains w.text g) = none)

/-- A page that makes the heading locator raise: text extraction raises,
or returns `None` (the regex call then raises), or the regex matches and
word extraction raises. -/
def locRaises (m : Matcher) (p : Page) : Prop :=
  p.textE = Except.error () ∨ p.textE = Except.ok none ∨
    (∃ s g, p.textE = Except.ok (some s) ∧ m s = some g ∧
      p.wordsE = Except.error ())

/-- A page whose extraction calls do not raise for the heading locator:
text extraction returns a string, and word extraction succeeds whenever
the regex matches. -/
def locClean (m : Matcher) (p : Page) : Prop :=
  ∃ s, p.textE = Except.ok (some s) ∧
    ((m s).isSome → ∃ ws, p.wordsE = Except.ok ws)

/-- The outcome of one page for the college-name scan, on a page whose
text extraction returns a string: the accepted candidate of the page's
tables, provided the page text contains the phrase. -/
def pageNameOpt (p : Page) : Option String :=
  match p.textE with
  | Except.ok (some s) =>
      if strContains s "BASIC INFORMATION" then findNameInTables p.tables
      else none
  | _ => none

/-- A page the college-name scan passes over: text extraction returns a
string, and either the phrase is absent or the page's tables yield no
accepted candidate. -/
def namePassed (p : Page) : Prop :=
  ∃ s, p.textE = Except.ok (some s) ∧
    (strContains s "BASIC INFORMATION" = false ∨
      findNameInTables p.tables = none)

/-- A structurally valid candidate table with three rows: the year header
row, one data row, and one extra row that the extractor must discard. -/
def goodTable : Table :=
  [[some "2020-21", some "2019-20", some "2018-19", some "2017-18",
    some "2016-17"],
   [some "10", some "20", some "30", some "40", some "50"],
   [some "99", some "98", some "97", some "96", some "95"]]

/-- A candidate table whose first row has only 4 cells. -/
def badTable4 : Table :=
  [[some "2020-21", some "2019-20", some "2018-19", some "2017-18"],
   [some "1", some "2", some "3", some "4"]]

/-- A candidate table whose first row has 6 cells. -/
def badTable6 : Table :=
  [[some "2021-22", some "2020-21", some "2019-20", some "2018-19",
    some "2017-18", some "2016-17"],
   [some "1", some "2", some "3", some "4", some "5", some "6"]]

/-- A candidate table with a missing (`None`) cell in its first row. -/
def noneCellTable : Table :=
  [[some "2020-21", none, some "2018-19", some "2017-18", some "2016-17"],
   [some "1", some "2", some "3", some "4", some "5"]]

/-- A concrete matcher: the heading pattern matches when the page text
contains the section number, which is also the captured group. -/
def demoMatcher : Matcher := fun s =>
  if strContains s "2.1.1" then some "2.1.1" else none

/-- A page with the heading near the bottom (word bottom 720) and no
valid table below it. -/
def pageHeadBottom : Page :=
  { textE := Except.ok (some "2.1.1 Number of students"),
    wordsE := Except.ok [{ text := "2.1.1", bottom := 720 }],
    tables := [],
    cropTables := fun _ => [] }

/-- A page whose uncropped table list carries the valid table. -/
def pageWithTable : Page :=
  { textE := Except.ok (some "continuation page"),
    wordsE := Except.ok [],
    tables := [goodTable],
    cropTables := fun _ => [goodTable] }

/-- Two-page document exercising the next-page fallback. -/
def fallbackPdf : List Page := [pageHeadBottom, pageWithTable]

/-- A page with the heading high on the page (word bottom 650) and no
valid table below it. -/
def pageHeadLowNoTable : Page :=
  { textE := Except.ok (some "2.1.1 Number of students"),
    wordsE := Except.ok [{ text := "2.1.1", bottom := 650 }],
    tables := [],
    cropTables := fun _ => [] }

/-- Document where the heading sits high on page 0 with no table there,
though page 1 would have one: the fallback must not fire. -/
def lowPdf : List Page := [pageHeadLowNoTable, pageWithTable]

/-- Single-page document with the heading near the bottom: the fallback
targets a page that does not exist. -/
def soloPdf : List Page := [pageHeadBottom]

/-- Matcher for the locator counterexample: the pattern matches any text
containing `SEC`, capturing the group `9.9`. -/
def cexMatcher : Matcher := fun s =>
  if strContains s "SEC" then some "9.9" else none

/-- A page whose text matches the pattern but none of whose words
contains the captured group. -/
def pageMatchNoWord : Page :=
  { textE := Except.ok (some "SEC heading text"),
    wordsE := Except.ok [{ text := "heading", bottom := 100 }],
    tables := [],
    cropTables := fun _ => [] }

/-- A later page whose text matches and whose word list contains the
captured group at bottom 55. -/
def pageMatchWithWord : Page :=
  { textE := Except.ok (some "SEC again"),
    wordsE := Except.ok [{ text := "9.9", bottom := 55 }],
    tables := [],
    cropTables := fun _ => [] }

/-- Two-page document for the locator counterexample. -/
def cexPdf : List Page := [pageMatchNoWord, pageMatchWithWord]

/-- A BASIC INFORMATION table: the header label occupies cell 1 of row 1
and the college name cell 1 of row 2. -/
def basicTable : Table :=
  [[some "Sl", some "Heading"],
   [some "1", some "name of the college"],
   [some "2", some "  ABC College  "]]

/-- A page containing the BASIC INFORMATION phrase and table. -/
def pageBI : Page :=
  { textE := Except.ok (some "Part A BASIC INFORMATION of the institution"),
    wordsE := Except.ok [],
    tables := [basicTable],
    cropTables := fun _ => [] }

/-- An ordinary page without the phrase. -/
def pagePlain : Page :=
  { textE := Except.ok (some "nothing of interest here"),
    wordsE := Except.ok [],
    tables := [],
    cropTables := fun _ => [] }

/-- A page whose `extract_text()` returns `None`. -/
def pageNoText : Page :=
  { textE := Except.ok none,
    wordsE := Except.ok [],
    tables := [],
    cropTables := fun _ => [] }

/-- Document where a text-less page precedes the BASIC INFORMATION page. -/
def blockedPdf : List Page := [pagePlain, pageNoText, pageBI]

/-- Two per-file results, one successful and one with nothing found, as
consumed by the writer. -/
def demoRecs : List Record :=
  [{ name := "A College", df := some (goodTable.take 2), sectionFound := true },
   { name := "B College", df := none, sectionFound := false }]

theorem find_first_split {α : Type} (p : α → Bool) :
    ∀ (l : List α) (a : α), l.find? p = some a →
      p a = true ∧ ∃ pre post, l = pre ++ a :: post ∧ ∀ x ∈ pre, p x = false
  | [], a => by intro h; simp [List.find?] at h
  | x :: xs, a => by
      intro h
      by_cases hx : p x = true
      · rw [List.find?_cons_of_pos _ hx] at h
        obtain rfl : x = a := by injection h
        exact ⟨hx, [], xs, rfl, by intro y hy; cases hy⟩
      · rw [List.find?_cons_of_neg _ hx] at h
        obtain ⟨hpa, pre, post, rfl, hpre⟩ := find_first_split p xs a h
        refine ⟨hpa, x :: pre, post, rfl, ?_⟩
        intro y hy
        rcases List.mem_cons.mp hy with rfl | hy2
        · exact Bool.eq_false_iff.mpr hx
        · exact hpre y hy2

theorem validTable_iff (t : Table) :
    validTable t = true ↔
      2 ≤ t.length ∧ (t.headD []).length = 5 ∧
        ∀ c ∈ t.headD [], matchesYearPat (pyStr c) = true := by
  simp [validTable, List.all_eq_true, and_assoc]

theorem validTable_eq_false_of_len (t : Table)
    (h : (t.headD []).length ≠ 5) : validTable t = false := by
  rw [Bool.eq_false_iff]
  intro hv
  exact h ((validTable_iff t).mp hv).2.1

theorem selectValidTable_split (ts : List Table) (res : Table)
    (h : selectValidTable ts = some res) :
    ∃ pre t post, ts = pre ++ t :: post ∧ validTable t = true ∧
      res = t.take 2 ∧ ∀ u ∈ pre, validTable u = false := by
  unfold selectValidTable at h
  cases hf : ts.find? validTable with
  | none => rw [hf] at h; cases h
  | some t =>
      rw [hf] at h
      obtain ⟨hv, pre, post, rfl, hpre⟩ := find_first_split validTable ts t hf
      obtain rfl : res = t.take 2 := by
        injection h with h2; exact h2.symm
      exact ⟨pre, t, post, rfl, hv, rfl, hpre⟩

theorem selectValidTable_none (ts : List Table)
    (h : ∀ t ∈ ts, validTable t = false) : selectValidTable ts = none := by
  unfold selectValidTable
  rw [List.find?_eq_none.mpr (fun t ht => by simp [h t ht])]
  rfl

theorem extract_crop_eq (pdf : List Page) (k : Nat) (y : Int) :
    extract_table_from_cropped_area pdf k (some y) false
      = match pdf[k]? with
        | none => none
        | some p => selectValidTable (p.cropTables y) := by
  cases hg : pdf[k]? with
  | none =>
      have hlen : pdf.length ≤ k := List.getElem?_eq_none_iff.mp hg
      simp [extract_table_from_cropped_area, hlen, hg]
  | some p =>
      have hlt : ¬ pdf.length ≤ k := fun hle => by
        rw [List.getElem?_eq_none_iff.mpr hle] at hg; cases hg
      simp [extract_table_from_cropped_area, hlt, hg]

theorem extract_plain_eq (pdf : List Page) (k : Nat) (y : Int) :
    extract_table_plain pdf k y
      = extract_table_from_cropped_area pdf k (some y) false := by
  rw [extract_crop_eq]
  cases hg : pdf[k]? with
  | none => simp [extract_table_plain, hg]
  | some p => simp [extract_table_plain, hg]

/-- C1: the Table Extractor scans the tables reported in the (possibly
cropped) region in order and returns the first one with at least 2 rows,
a 5-cell first row, and every first-row cell passing the year pattern;
first rows of any other cell count are rejected regardless of content,
and when no table qualifies it returns no table. -/
theorem extractor_selects_first_valid :
    (∀ pdf k y, extract_table_from_cropped_area pdf k (some y) false
        = match pdf[k]? with
          | none => none
          | some p => selectValidTable (p.cropTables y))
    ∧ (∀ pdf k y, extract_table_plain pdf k y
        = extract_table_from_cropped_area pdf k (some y) false)
    ∧ (∀ t, validTable t = true ↔
        2 ≤ t.length ∧ (t.headD []).length = 5 ∧
          ∀ c ∈ t.headD [], matchesYearPat (pyStr c) = true)
    ∧ (∀ t, (t.headD []).length ≠ 5 → validTable t = false)
    ∧ (∀ ts res, selectValidTable ts = some res →
        ∃ pre t post, ts = pre ++ t :: post ∧ validTable t = true ∧
          res = t.take 2 ∧ ∀ u ∈ pre, validTable u = false)
    ∧ (∀ ts, (∀ t ∈ ts, validTable t = false) → selectValidTable ts = none) :=
  ⟨extract_crop_eq, extract_plain_eq, validTable_iff,
    validTable_eq_false_of_len, selectValidTable_split, selectValidTable_none⟩

theorem extractor_selects_first_valid_witness :
    validTable badTable4 = false
    ∧ validTable badTable6 = false
    ∧ selectValidTable [badTable4, badTable6] = none
    ∧ (∃ pre t post,
        ([badTable4, goodTable, badTable6] : List Table) = pre ++ t :: post
          ∧ validTable t = true ∧ goodTable.take 2 = t.take 2
          ∧ ∀ u ∈ pre, validTable u = false) := by
  obtain ⟨h1, h2, h3, h4, h5, h6⟩ := extractor_selects_first_valid
  refine ⟨h4 badTable4 (by decide), h4 badTable6 (by decide),
    h6 [badTable4, badTable6] (by decide), ?_⟩
  obtain ⟨pre, t, post, heq, hv, hres, hpre⟩ :=
    h5 [badTable4, goodTable, badTable6] (goodTable.take 2) (by decide)
  exact ⟨pre, t, post, heq, hv, hres, hpre⟩

theorem validTable_shape (t : Table) (h : validTable t = true) :
    ∃ a b rest, t = a :: b :: rest := by
  obtain ⟨hlen, -, -⟩ := (validTable_iff t).mp h
  match t, hlen with
  | a :: b :: rest, _ => exact ⟨a, b, rest, rfl⟩

/-- C2: a table accepted by the extractor is returned truncated to
exactly its first two rows (header row and first data row); rows at
index 2 and beyond are discarded, so a valid table with extra data rows
gives the same 2-row result as the same table truncated to two rows. -/
theorem extractor_keeps_first_two_rows :
    ∀ t : Table, validTable t = true →
      selectValidTable [t] = some (t.take 2)
      ∧ selectValidTable [t.take 2] = some (t.take 2)
      ∧ (t.take 2).length = 2
      ∧ t.take 2 = [t.headD [], (t.drop 1).headD []] := by
  intro t hv
  obtain ⟨a, b, rest, rfl⟩ := validTable_shape t hv
  have hv2 : validTable [a, b] = true := by
    obtain ⟨-, hhead, hall⟩ := (validTable_iff (a :: b :: rest)).mp hv
    exact (validTable_iff [a, b]).mpr ⟨by simp, hhead, hall⟩
  refine ⟨?_, ?_, rfl, rfl⟩
  · simp [selectValidTable, List.find?_cons_of_pos _ hv]
  · simp [selectValidTable, List.find?_cons_of_pos _ hv2]

theorem extractor_keeps_first_two_rows_witness :
    selectValidTable [goodTable] = some (goodTable.take 2)
    ∧ selectValidTable [goodTable.take 2] = some (goodTable.take 2)
    ∧ (goodTable.take 2).length = 2 := by
  have h := extractor_keeps_first_two_rows goodTable (by decide)
  exact ⟨h.1, h.2.1, h.2.2.1⟩

theorem matchesYearPat_iff (s : String) :
    matchesYearPat s = true ↔ ∃ a b c d e f rest,
      s.data = a :: b :: c :: d :: '-' :: e :: f :: rest
        ∧ a.isDigit = true ∧ b.isDigit = true ∧ c.isDigit = true
        ∧ d.isDigit = true ∧ e.isDigit = true ∧ f.isDigit = true := by
  constructor
  · intro h
    unfold matchesYearPat at h
    split at h
    case _ c1 c2 c3 c4 ch c5 c6 rest heq =>
      simp only [Bool.and_eq_true, beq_iff_eq] at h
      obtain ⟨⟨⟨⟨⟨⟨h1, h2⟩, h3⟩, h4⟩, hh⟩, h5⟩, h6⟩ := h
      subst hh
      exact ⟨c1, c2, c3, c4, c5, c6, rest, heq, h1, h2, h3, h4, h5, h6⟩
    case _ => cases h
  · rintro ⟨a, b, c, d, e, f, rest, hdata, h1, h2, h3, h4, h5, h6⟩
    unfold matchesYearPat
    rw [hdata]
    simp [h1, h2, h3, h4, h5, h6]

theorem matchesYearPat_append (s : String) (extra : List Char)
    (h : matchesYearPat s = true) :
    matchesYearPat (String.mk (s.data ++ extra)) = true := by
  obtain ⟨a, b, c, d, e, f, rest, hdata, hds⟩ := (matchesYearPat_iff s).mp h
  refine (matchesYearPat_iff (String.mk (s.data ++ extra))).mpr
    ⟨a, b, c, d, e, f, rest ++ extra, ?_, hds.1, hds.2.1, hds.2.2.1,
      hds.2.2.2.1, hds.2.2.2.2.1, hds.2.2.2.2.2⟩
  simp [hdata]

theorem validTable_none_cell (t : Table) (h : none ∈ t.headD []) :
    validTable t = false := by
  rw [Bool.eq_false_iff]
  intro hv
  obtain ⟨-, -, hall⟩ := (validTable_iff t).mp hv
  have := hall none h
  exact absurd this (by decide)

/-- C9: the header-cell check stringifies each first-row cell and tests
an anchored prefix only: a cell passes exactly when its string form
begins with four digits, a hyphen and two digits, arbitrary characters
may follow (so `2020-2156` passes), while a missing (`None`) cell
stringifies to `"None"`, fails the pattern, and invalidates the whole
candidate table. -/
theorem year_header_match_is_anchored_only :
    (∀ s, matchesYearPat s = true ↔ ∃ a b c d e f rest,
        s.data = a :: b :: c :: d :: '-' :: e :: f :: rest
          ∧ a.isDigit = true ∧ b.isDigit = true ∧ c.isDigit = true
          ∧ d.isDigit = true ∧ e.isDigit = true ∧ f.isDigit = true)
    ∧ (∀ s extra, matchesYearPat s = true →
        matchesYearPat (String.mk (s.data ++ extra)) = true)
    ∧ matchesYearPat (pyStr (some "2020-2156")) = true
    ∧ pyStr none = "None"
    ∧ matchesYearPat (pyStr none) = false
    ∧ (∀ t, none ∈ t.headD [] → validTable t = false) :=
  ⟨matchesYearPat_iff, matchesYearPat_append, by decide, rfl, by decide,
    validTable_none_cell⟩

theorem year_header_match_is_anchored_only_witness :
    matchesYearPat (String.mk ("2020-21".data ++ "56!".data)) = true
    ∧ validTable noneCellTable = false := by
  have h := year_header_match_is_anchored_only
  exact ⟨h.2.1 "2020-21" "56!".data (by decide),
    h.2.2.2.2.2 noneCellTable (by decide)⟩

/-- C3: when the heading was located at `(k, y)`, a failed crop-mode
extraction on page `k` is retried exactly once in next-page mode on page
`k + 1` provided `700 ≤ y`; a successful extraction, or `y < 700`,
yields no retry; and a retry aimed past the last page returns no table. -/
theorem next_page_fallback_behavior :
    ∀ m pdf k y, find_text_and_crop m pdf = some (k, y) →
      (extract_table_from_cropped_area pdf k (some y) false = none →
        700 ≤ y →
        extract_enrollment_table m pdf
          = (extract_table_from_cropped_area pdf (k + 1) none true, true))
      ∧ (∀ df, extract_table_from_cropped_area pdf k (some y) false = some df →
        extract_enrollment_table m pdf = (some df, true))
      ∧ (extract_table_from_cropped_area pdf k (some y) false = none →
        y < 700 → extract_enrollment_table m pdf = (none, true))
      ∧ (pdf.length ≤ k + 1 →
        extract_table_from_cropped_area pdf (k + 1) none true = none) := by
  intro m pdf k y hf
  refine ⟨?_, ?_, ?_, ?_⟩
  · intro hnone h700
    simp [extract_enrollment_table, hf, hnone, h700]
  · intro df hdf
    simp [extract_enrollment_table, hf, hdf]
  · intro hnone hlt
    have h7 : ¬ 700 ≤ y := by omega
    simp [extract_enrollment_table, hf, hnone, h7]
  · intro hk
    simp [extract_table_from_cropped_area, hk]

theorem next_page_fallback_behavior_witness :
    extract_enrollment_table demoMatcher fallbackPdf
      = (extract_table_from_cropped_area fallbackPdf 1 none true, true)
    ∧ extract_table_from_cropped_area fallbackPdf 1 none true
      = some (goodTable.take 2)
    ∧ extract_enrollment_table demoMatcher lowPdf = (none, true)
    ∧ extract_table_from_cropped_area soloPdf 1 none true = none := by
  have h1 := next_page_fallback_behavior demoMatcher fallbackPdf 0 720 (by decide)
  have h2 := next_page_fallback_behavior demoMatcher lowPdf 0 650 (by decide)
  have h3 := next_page_fallback_behavior demoMatcher soloPdf 0 720 (by decide)
  exact ⟨h1.1 (by decide) (by decide), by decide,
    h2.2.2.1 (by decide) (by decide), h3.2.2.2 (by decide)⟩

/-- C4 counterexample: in `cexPdf` the text of page 0 already matches the
pattern, yet the locator returns page 1 (no word of page 0 contains the
captured group, so the loop moves on), refuting the claim that the page
index returned is that of the first regex-matching page and that pages
after it are never considered. -/
theorem heading_locator_counterexample :
    cexPdf[0]? = some pageMatchNoWord
    ∧ pageMatchNoWord.textE = Except.ok (some "SEC heading text")
    ∧ (cexMatcher "SEC heading text").isSome = true
    ∧ find_text_and_crop cexMatcher cexPdf = some (1, 55)
    ∧ (find_text_and_crop cexMatcher cexPdf).map Prod.fst ≠ some 0 :=
  ⟨rfl, rfl, by decide, by decide, by decide⟩

theorem find_loop_clean (m : Matcher) :
    ∀ (pdf : List Page) (i : Nat), (∀ p ∈ pdf, locClean m p) →
      find_loop m pdf i = Except.ok (locate_first m pdf i)
  | [], i => by intro h; rfl
  | p :: rest, i => by
      intro h
      obtain ⟨s, hs, hw⟩ := h p (List.mem_cons_self p rest)
      have hrest : ∀ q ∈ rest, locClean m q := fun q hq =>
        h q (List.mem_cons_of_mem p hq)
      have ih := find_loop_clean m rest (i + 1) hrest
      cases hm : m s with
      | none =>
          simp [find_loop, locate_first, pageHit, hs, hm, ih]
      | some g =>
          obtain ⟨ws, hws⟩ := hw (by simp [hm])
          cases hfind : ws.find? (fun w => strContains w.text g) with
          | none =>
              simp [find_loop, locate_first, pageHit, hs, hm, hws, hfind, ih]
          | some w =>
              simp [find_loop, locate_first, pageHit, hs, hm, hws, hfind]

/-- C4 amended: on a document whose pages raise no extraction errors, the
Heading Locator returns the first page, in order, whose text matches the
regex AND which has a word containing the captured group, together with
the bottom coordinate of the first such word; a page whose text matches
the regex but whose words lack the captured group is skipped, and later
pages are then still considered. -/
theorem heading_locator_first_hit :
    ∀ m pdf, (∀ p ∈ pdf, locClean m p) →
      find_text_and_crop m pdf = locate_first m pdf 0 := by
  intro m pdf h
  unfold find_text_and_crop
  rw [find_loop_clean m pdf 0 h]

theorem heading_locator_first_hit_witness :
    find_text_and_crop demoMatcher fallbackPdf
      = locate_first demoMatcher fallbackPdf 0
    ∧ locate_first demoMatcher fallbackPdf 0 = some (0, 720) := by
  refine ⟨heading_locator_first_hit demoMatcher fallbackPdf ?_, by decide⟩
  intro p hp
  simp [fallbackPdf] at hp
  rcases hp with rfl | rfl
  · exact ⟨"2.1.1 Number of students", rfl,
      fun _ => ⟨[{ text := "2.1.1", bottom := 720 }], rfl⟩⟩
  · exact ⟨"continuation page", rfl, fun _ => ⟨[], rfl⟩⟩

/-- C6: in the fallback-enabled variant, a record with no table is
written with a data row of `x` markers exactly when the heading was not
found (`section_found` false), and with blank data cells when the
heading was found; the `section_found` flag produced by extraction is
exactly heading-was-located, and the per-document boundary passes
non-raising results through unchanged. -/
theorem placeholder_marker_policy :
    (∀ nm sf c,
      (blockWrites { name := nm, df := none, sectionFound := sf } c).filter
          (fun w => w.row == 3)
        = (List.range 5).map (fun i =>
            { row := 3, col := c + i,
              val := if sf then none else some "x" }))
    ∧ (∀ m pdf, (extract_enrollment_table m pdf).2
        = (find_text_and_crop m pdf).isSome)
    ∧ (∀ v : Option Table × Bool, catchDoc (Except.ok v) = v) := by
  refine ⟨?_, ?_, fun v => rfl⟩
  · intro nm sf c
    cases sf <;>
      simp [blockWrites, placeholderWrites, default_years, List.filter,
        List.enum, List.range_succ]
  · intro m pdf
    cases hf : find_text_and_crop m pdf with
    | none => simp [extract_enrollment_table, hf]
    | some ky =>
        obtain ⟨k, y⟩ := ky
        cases he : extract_table_from_cropped_area pdf k (some y) false with
        | some df => simp [extract_enrollment_table, hf, he]
        | none =>
            by_cases h7 : 700 ≤ y
            · simp [extract_enrollment_table, hf, he, h7]
            · simp [extract_enrollment_table, hf, he, h7]

theorem find_loop_pass_raises (m : Matcher) (bad : Page) (post : List Page)
    (hbad : locRaises m bad) :
    ∀ (pre : List Page) (i : Nat), (∀ p ∈ pre, locPassed m p) →
      find_loop m (pre ++ bad :: post) i = Except.error ()
  | [], i => by
      intro h
      rcases hbad with h1 | h1 | ⟨s, g, hs, hg, hw⟩
      · simp [find_loop, h1]
      · simp [find_loop, h1]
      · simp [find_loop, hs, hg, hw]
  | p :: pre, i => by
      intro h
      obtain ⟨s, hs, hrest⟩ := h p (List.mem_cons_self p pre)
      have hpre : ∀ q ∈ pre, locPassed m q := fun q hq =>
        h q (List.mem_cons_of_mem p hq)
      have ih := find_loop_pass_raises m bad post hbad pre (i + 1) hpre
      rcases hrest with hm | ⟨g, ws, hg, hws, hfind⟩
      · simp [find_loop, hs, hm, ih]
      · simp [find_loop, hs, hg, hws, hfind, ih]

/-- C7: an extraction raise on a page reached while locating the heading
makes the whole locate operation return not-found instead of
propagating; and the per-document boundary of the batch records a
raising document as an absent result while keeping one entry per
document and passing non-raising results through. -/
theorem locator_and_batch_swallow_exceptions :
    (∀ m (pre : List Page) (bad : Page) (post : List Page),
      (∀ p ∈ pre, locPassed m p) → locRaises m bad →
      find_text_and_crop m (pre ++ bad :: post) = none)
    ∧ (∀ docs : List (Except Unit (Option Table × Bool)),
        (process_results docs).length = docs.length)
    ∧ (∀ (docs : List (Except Unit (Option Table × Bool))) (i : Nat) v,
        docs[i]? = some (Except.ok v) →
        (process_results docs)[i]? = some v)
    ∧ (∀ (docs : List (Except Unit (Option Table × Bool))) (i : Nat) e,
        docs[i]? = some (Except.error e) →
        (process_results docs)[i]? = some ((none : Option Table), false)) := by
  refine ⟨?_, ?_, ?_, ?_⟩
  · intro m pre bad post hpre hbad
    unfold find_text_and_crop
    rw [find_loop_pass_raises m bad post hbad pre 0 hpre]
  · intro docs
    exact List.length_map docs catchDoc
  · intro docs i v h
    unfold process_results
    rw [List.getElem?_map, h]
    rfl
  · intro docs i e h
    unfold process_results
    rw [List.getElem?_map, h]
    rfl

theorem locator_and_batch_swallow_exceptions_witness :
    find_text_and_crop demoMatcher [pagePlain, pageNoText, pageWithTable] = none
    ∧ (process_results
        [Except.error (), Except.ok (some goodTable, true)])[0]?
        = some (none, false)
    ∧ (process_results
        [Except.error (), Except.ok (some goodTable, true)])[1]?
        = some (some goodTable, true) := by
  have h := locator_and_batch_swallow_exceptions
  refine ⟨?_, h.2.2.2 _ 0 () rfl, h.2.2.1 _ 1 _ rfl⟩
  exact h.1 demoMatcher [pagePlain] pageNoText [pageWithTable]
    (by
      intro p hp
      simp at hp
      subst hp
      exact ⟨"nothing of interest here", rfl, Or.inl (by decide)⟩)
    (Or.inr (Or.inl rfl))

theorem gcn_loop_blocked_aux :
    ∀ (pre : List Page) (bad : Page) (post : List Page),
      (∀ p ∈ pre, namePassed p) → bad.textE = Except.ok none →
      gcn_loop (pre ++ bad :: post) = Except.error ()
  | [], bad, post => by
      intro h hbad
      simp [gcn_loop, hbad]
  | p :: pre, bad, post => by
      intro h hbad
      obtain ⟨s, hs, hrest⟩ := h p (List.mem_cons_self p pre)
      have hpre : ∀ q ∈ pre, namePassed q := fun q hq =>
        h q (List.mem_cons_of_mem p hq)
      have ih := gcn_loop_blocked_aux pre bad post hpre hbad
      rcases hrest with hno | hnone
      · simp [gcn_loop, hs, hno, ih]
      · by_cases hbi : strContains s "BASIC INFORMATION" = true
        · simp [gcn_loop, hs, hbi, hnone, ih]
        · simp [gcn_loop, hs, hbi, ih]

/-- C10: when a page yielding no extractable text precedes the page
containing the BASIC INFORMATION phrase, the raised membership test is
caught at the document level and `get_college_name` returns `None` for
the whole document, whatever the later pages contain. -/
theorem blank_page_blocks_college_name :
    ∀ (pre : List Page) (bad : Page) (post : List Page),
      (∀ p ∈ pre, namePassed p) → bad.textE = Except.ok none →
      get_college_name (pre ++ bad :: post) = none := by
  intro pre bad post hpre hbad
  unfold get_college_name
  rw [gcn_loop_blocked_aux pre bad post hpre hbad]

theorem blank_page_blocks_college_name_witness :
    get_college_name blockedPdf = none
    ∧ get_college_name [pageBI] = some "ABC College" := by
  refine ⟨?_, by decide⟩
  exact blank_page_blocks_college_name [pagePlain] pageNoText [pageBI]
    (by
      intro p hp
      simp at hp
      subst hp
      exact ⟨"nothing of interest here", rfl, Or.inl (by decide)⟩)
    rfl

theorem gcn_loop_textok :
    ∀ (pdf : List Page), (∀ p ∈ pdf, ∃ s, p.textE = Except.ok (some s)) →
      gcn_loop pdf = Except.ok (pdf.findSome? pageNameOpt)
  | [] => by intro h; rfl
  | p :: rest => by
      intro h
      obtain ⟨s, hs⟩ := h p (List.mem_cons_self p rest)
      have ih := gcn_loop_textok rest (fun q hq => h q (List.mem_cons_of_mem p hq))
      by_cases hbi : strContains s "BASIC INFORMATION" = true
      · cases hn : findNameInTables p.tables with
        | some nm =>
            simp [gcn_loop, List.findSome?_cons, pageNameOpt, hs, hbi, hn]
        | none =>
            simp [gcn_loop, List.findSome?_cons, pageNameOpt, hs, hbi, hn, ih]
      · simp [gcn_loop, List.findSome?_cons, pageNameOpt, hs, hbi, ih]

/-- C8: the college-name scan accepts, from the tables of a page whose
text contains BASIC INFORMATION, the first stripped cell at column
index 1 of a row of index at least 1 that is non-empty and whose
lowercase form is not the header label; when no candidate exists the
scan yields nothing and the caller's `or` substitutes the fallback
display name. -/
theorem college_name_selection :
    (∀ row n, nameFromRow row = some n ↔
        1 < row.length ∧ n = pyStrip (cellStr (row.getD 1 none))
          ∧ n ≠ "" ∧ pyLower n ≠ "name of the college")
    ∧ (∀ pdf, (∀ p ∈ pdf, ∃ s, p.textE = Except.ok (some s)) →
        get_college_name pdf = pdf.findSome? pageNameOpt)
    ∧ (∀ pdf base, get_college_name pdf = none →
        pyOr (get_college_name pdf) base = base) := by
  refine ⟨?_, ?_, ?_⟩
  · intro row n
    constructor
    · intro h
      unfold nameFromRow at h
      by_cases hlen : 1 < row.length
      · rw [if_pos hlen] at h
        have h2 : (if pyStrip (cellStr (row.getD 1 none)) ≠ "" ∧
              pyLower (pyStrip (cellStr (row.getD 1 none)))
                ≠ "name of the college"
            then some (pyStrip (cellStr (row.getD 1 none)))
            else none) = some n := h
        by_cases hcond : pyStrip (cellStr (row.getD 1 none)) ≠ "" ∧
            pyLower (pyStrip (cellStr (row.getD 1 none)))
              ≠ "name of the college"
        · rw [if_pos hcond] at h2
          injection h2 with h3
          exact ⟨hlen, h3.symm, h3 ▸ hcond.1, h3 ▸ hcond.2⟩
        · rw [if_neg hcond] at h2
          cases h2
      · rw [if_neg hlen] at h
        cases h
    · rintro ⟨hlen, rfl, h3, h4⟩
      unfold nameFromRow
      rw [if_pos hlen]
      exact if_pos ⟨h3, h4⟩
  · intro pdf h
    unfold get_college_name
    rw [gcn_loop_textok pdf h]
  · intro pdf base h
    rw [h]
    rfl

theorem college_name_selection_witness :
    nameFromRow [some "2", some "  ABC College  "] = some "ABC College"
    ∧ get_college_name [pagePlain, pageBI]
        = List.findSome? pageNameOpt [pagePlain, pageBI]
    ∧ List.findSome? pageNameOpt [pagePlain, pageBI] = some "ABC College"
    ∧ pyOr (get_college_name [pagePlain]) "fallback name" = "fallback name" := by
  have h := college_name_selection
  refine ⟨(h.1 [some "2", some "  ABC College  "] "ABC College").mpr (by decide),
    h.2.1 [pagePlain, pageBI] ?_, by decide,
    h.2.2 [pagePlain] "fallback name" (by decide)⟩
  intro p hp
  simp at hp
  rcases hp with rfl | rfl
  · exact ⟨"nothing of interest here", rfl⟩
  · exact ⟨"Part A BASIC INFORMATION of the institution", rfl⟩

theorem range_five_split (c k : Nat) :
    List.range' c (k + 5)
      = c :: (c + 1) :: (c + 2) :: (c + 3) :: (c + 4) :: List.range' (c + 5) k :=
  rfl

theorem save_loop_widthCols :
    ∀ (recs : List Record) (c : Nat),
      (save_loop recs c).widthCols = List.range' c (5 * recs.length)
  | [], c => by simp [save_loop, List.range']
  | r :: rest, c => by
      have ih := save_loop_widthCols rest (c + 5)
      show blockWidthCols c ++ (save_loop rest (c + 5)).widthCols = _
      rw [ih]
      have h5 : 5 * (r :: rest).length = 5 * rest.length + 5 := by
        simp [List.length_cons]
        omega
      rw [h5, range_five_split]
      rfl

theorem save_loop_merges :
    ∀ (recs : List Record) (c : Nat),
      (save_loop recs c).merges
        = (List.range recs.length).map
            (fun i => (1, c + 5 * i, 1, c + 5 * i + 4))
  | [], c => by simp [save_loop]
  | r :: rest, c => by
      have ih := save_loop_merges rest (c + 5)
      show (1, c, 1, c + 4) :: (save_loop rest (c + 5)).merges = _
      rw [ih, List.length_cons, List.range_succ_eq_map, List.map_cons,
        List.map_map]
      congr 1
      apply List.map_congr_left
      intro a ha
      have h1 : c + 5 + 5 * a = c + 5 * (a + 1) := by ring
      simp only [Function.comp_apply, Nat.succ_eq_add_one, h1]

theorem mem_rowWrites_col (r c : Nat) (vals : List Cell) (w : Write)
    (hw : w ∈ rowWrites r c vals) :
    ∃ j, j < vals.length ∧ w.col = c + j ∧ w.row = r := by
  unfold rowWrites at hw
  obtain ⟨p, hp, rfl⟩ := List.mem_map.mp hw
  obtain ⟨i, x⟩ := p
  have hb := List.mem_enumFrom (show (i, x) ∈ List.enumFrom 0 vals from hp)
  exact ⟨i, by omega, rfl, rfl⟩

theorem placeholder_col_bound (sf : Bool) (c : Nat) (w : Write)
    (hw : w ∈ placeholderWrites sf c) : c ≤ w.col ∧ w.col ≤ c + 4 := by
  simp [placeholderWrites, default_years, List.enum, List.enumFrom] at hw
  rcases hw with rfl | rfl | rfl | rfl | rfl | rfl | rfl | rfl | rfl | rfl <;>
    simp

theorem blockWrites_col_bound (rec : Record) (c : Nat)
    (hdf : ∀ t, rec.df = some t → ∀ row ∈ t, row.length = 5)
    (w : Write) (hw : w ∈ blockWrites rec c) : c ≤ w.col ∧ w.col ≤ c + 4 := by
  unfold blockWrites at hw
  rcases List.mem_cons.mp hw with rfl | hw2
  · simp
  · cases hdfm : rec.df with
    | none =>
        simp only [hdfm] at hw2
        exact placeholder_col_bound _ _ _ hw2
    | some t =>
        simp only [hdfm] at hw2
        by_cases ht0 : t.length = 0
        · rw [if_pos ht0] at hw2
          exact placeholder_col_bound _ _ _ hw2
        · rw [if_neg ht0] at hw2
          have hrows := hdf t hdfm
          rcases List.mem_append.mp hw2 with hw3 | hw3
          · obtain ⟨j, hj, hcol, -⟩ := mem_rowWrites_col 2 c (t.headD []) w hw3
            have hlen : (t.headD []).length = 5 := by
              cases t with
              | nil => simp at ht0
              | cons a rest => exact hrows a (by simp)
            omega
          · split at hw3
            next hlt =>
              obtain ⟨j, hj, hcol, -⟩ :=
                mem_rowWrites_col 3 c ((t.drop 1).headD []) w hw3
              have hlen : ((t.drop 1).headD []).length = 5 := by
                cases t with
                | nil => simp at hlt
                | cons a rest =>
                    cases rest with
                    | nil => simp at hlt
                    | cons b rest2 => exact hrows b (by simp)
              omega
            next => cases hw3

theorem save_loop_writes_bound :
    ∀ (recs : List Record) (c : Nat),
      (∀ r ∈ recs, ∀ t, r.df = some t → ∀ row ∈ t, row.length = 5) →
      ∀ w ∈ (save_loop recs c).writes, c ≤ w.col ∧ w.col < c + 5 * recs.length
  | [], c => by intro h w hw; simp [save_loop] at hw
  | r :: rest, c => by
      intro h w hw
      have hw' : w ∈ blockWrites r c ++ (save_loop rest (c + 5)).writes := hw
      rcases List.mem_append.mp hw' with hw1 | hw2
      · have := blockWrites_col_bound r c (h r (by simp)) w hw1
        simp only [List.length_cons]
        omega
      · have := save_loop_writes_bound rest (c + 5)
          (fun q hq => h q (by simp [hq])) w hw2
        simp only [List.length_cons]
        omega

/-- C5: the writer gives every record exactly 5 columns in input order:
the merged name range of record `i` spans columns `5i+1 .. 5i+5`, all of
record `i`'s cell writes stay within those columns (given 5-cell result
rows), and the width-adjusted columns are exactly `1 .. 5n` for `n`
records, successful or not. -/
theorem writer_five_column_blocks (recs : List Record)
    (h : ∀ r ∈ recs, ∀ t, r.df = some t → ∀ row ∈ t, row.length = 5) :
    (save_to_excel recs).widthCols = List.range' 1 (5 * recs.length)
    ∧ (save_to_excel recs).merges
        = (List.range recs.length).map
            (fun i => (1, 5 * i + 1, 1, 5 * i + 5))
    ∧ (∀ i r, recs[i]? = some r →
        ∀ w ∈ blockWrites r (5 * i + 1),
          5 * i + 1 ≤ w.col ∧ w.col ≤ 5 * i + 5)
    ∧ (∀ w ∈ (save_to_excel recs).writes,
        1 ≤ w.col ∧ w.col ≤ 5 * recs.length) := by
  refine ⟨save_loop_widthCols recs 1, ?_, ?_, ?_⟩
  · rw [save_to_excel, save_loop_merges recs 1]
    apply List.map_congr_left
    intro a ha
    simp [Prod.ext_iff]
    omega
  · intro i r hir w hw
    have hr : r ∈ recs := List.getElem?_mem hir
    have := blockWrites_col_bound r (5 * i + 1) (h r hr) w hw
    omega
  · intro w hw
    have := save_loop_writes_bound recs 1 h w hw
    omega

theorem writer_five_column_blocks_witness :
    (save_to_excel demoRecs).widthCols = List.range' 1 (5 * demoRecs.length)
    ∧ (save_to_excel demoRecs).merges
        = (List.range demoRecs.length).map
            (fun i => (1, 5 * i + 1, 1, 5 * i + 5)) := by
  have h := writer_five_column_blocks demoRecs ?_
  · exact ⟨h.1, h.2.1⟩
  · intro r hr t ht row hrow
    simp [demoRecs] at hr
    rcases hr with rfl | rfl
    · simp at ht
      subst ht
      revert row hrow
      decide
    · simp at ht

end TableExtraction

